import Mathlib

/-!
Verification of the LFF_dataloader fan-out/tunnel/merge engine.

This file shallowly embeds `src/config.py` and `src/execute.py`.
External I/O (the SSH tunnel library, the SQLAlchemy driver, pandas) is
modelled by an environment record (`TargetEnv`) describing, for one target,
the outcome each external call would have, and by a ghost trace of `Event`s
recording the side effects the Python code performs (tunnel open/close,
connection attempt with the URL it was built from, commit, affected-rows
logging).  Python exceptions are modelled with `Except`; a raised exception
propagating out of `execute` is the `ExecuteOutcome.raised` constructor.
-/

namespace DL

/-- Log levels used by the `logging` calls in `execute.py`. -/
inductive LogLevel where
  | debug
  | info
  | warning
  | error
deriving DecidableEq

/-- One emitted log record: level plus rendered message. -/
structure LogMsg where
  level : LogLevel
  msg : String
deriving DecidableEq

/-- A cell value of a result table. -/
inductive Val where
  | vstr (s : String)
  | vint (n : Int)
deriving DecidableEq

/-- pandas `DataFrame` as used by `execute.py`: ordered column names and a
list of rows.  The positional row index of pandas is implicit: concatenation
with `ignore_index=True` is list append (positions are renumbered). -/
structure DF where
  columns : List String
  rows : List (List Val)
deriving DecidableEq

/-- `config.SSH` dataclass (src/config.py lines 28-34).  Field defaults are
the dataclass defaults; `password` is declared with `repr=False`. -/
structure SSH where
  host : String := "127.0.0.1"
  port : Nat := 22
  login : String := "root"
  key : Option String := none
  password : Option String := none
deriving DecidableEq

/-- `config.Base` dataclass (src/config.py lines 62-90).  Field defaults are
the dataclass defaults; `password` is declared with `repr=False`. -/
structure Base where
  ssh : Option SSH := none
  engine : String := "mysql+pymysql"
  server : String := "127.0.0.1"
  port : Nat := 3306
  user : String := "root"
  password : String := ""
  base : String := "mysql"
deriving DecidableEq

/-- The sqlalchemy `URL.create(...)` record built in `execute_on_base`
(src/execute.py lines 85-90). -/
structure URL where
  drivername : String
  username : String
  password : String
  host : String
  port : Nat
  database : String
deriving DecidableEq

/-- Outcome of `connection.execute(text(sql))` when it does not raise:
either a row-returning result (`returns_rows` true, with keys and fetched
rows) or a non-row-returning one with the driver's `rowcount`. -/
inductive SqlOutcome where
  | rows (columns : List String) (rows : List (List Val))
  | affected (count : Int)
deriving DecidableEq

/-- Environment for one execution attempt on one target: what each external
call would do.  `tunnelStart` is consulted only when the descriptor has an
`ssh` section; on success it yields `tunnel.local_bind_port`. -/
structure TargetEnv where
  tunnelStart : Except Unit Nat
  connect : Except Unit Unit
  exec : Except Unit SqlOutcome

/-- Phase in which an execution attempt raised (tunnel setup, connection
establishment, or statement execution). -/
inductive Phase where
  | tunnel
  | connect
  | query
deriving DecidableEq

/-- Ghost trace of the externally visible side effects of one attempt. -/
inductive Event where
  | tunnelOpened
  | tunnelClosed
  | connectAttempt (url : URL)
  | commit
  | logAffected (n : Int)
deriving DecidableEq

/-- The `URL.create(drivername=b.engine, username=b.user,
password=b.password, host=b.server, port=b.port if tunnel is None else
tunnel.local_bind_port, database=b.base)` expression of
src/execute.py lines 85-90.  Only the port is switched to the tunnel's
local bound port; the host stays `b.server`. -/
def connectionURL (b : Base) (tunnelLocalPort : Option Nat) : URL :=
  { drivername := b.engine
    username := b.user
    password := b.password
    host := b.server
    port := match tunnelLocalPort with
      | none => b.port
      | some p => p
    database := b.base }

/-- The `with engine.connect() as connection:` block of `execute_on_base`
(src/execute.py lines 84-114): build the URL, attempt the connection,
execute the statement; on a row-returning result materialize a DataFrame,
otherwise log the affected row count; then `connection.commit()` runs in
both branches (the commit sits outside the if/else, lines 112-114).
The `with` block always closes the connection, so connection closing is not
traced. -/
def runConn (b : Base) (tport : Option Nat) (env : TargetEnv) :
    Except Phase (Option DF) × List Event :=
  let url := connectionURL b tport
  match env.connect with
  | .error _ => (.error .connect, [.connectAttempt url])
  | .ok _ =>
    match env.exec with
    | .error _ => (.error .query, [.connectAttempt url])
    | .ok (.rows cols rws) =>
        (.ok (some ⟨cols, rws⟩), [.connectAttempt url, .commit])
    | .ok (.affected n) =>
        (.ok none, [.connectAttempt url, .logAffected n, .commit])

/-- `execute_on_base` (src/execute.py lines 50-122).  If the descriptor has
an `ssh` section a tunnel is started first (its failure raises before any
connection is made).  `tunnel.stop()` (line 119-120) is executed only on the
straight-line success path: the source has no try/finally, so when
`engine.connect()` or `connection.execute` raises, the trace contains no
`tunnelClosed` event. -/
def execute_on_base (b : Base) (env : TargetEnv) :
    Except Phase (Option DF) × List Event :=
  match b.ssh with
  | none => runConn b none env
  | some _ =>
    match env.tunnelStart with
    | .error _ => (.error .tunnel, [])
    | .ok port =>
      match runConn b (some port) env with
      | (.ok d, evs) => (.ok d, .tunnelOpened :: (evs ++ [.tunnelClosed]))
      | (.error p, evs) => (.error p, .tunnelOpened :: evs)

/-- Python `repr` of a string (single-quoted).  Quotes written via escapes. -/
def pyQuote (s : String) : String := "\x27" ++ s ++ "\x27"

/-- Python `repr` of an `Option String` (`None` or quoted). -/
def pyQuoteOpt : Option String → String
  | none => "None"
  | some s => pyQuote s

/-- The dataclass-generated `repr` of `SSH`: fields in declaration order,
omitting `password`, which is declared `field(default=None, repr=False)`
(src/config.py line 34). -/
def SSH.reprStr (s : SSH) : String :=
  "SSH(host=" ++ pyQuote s.host ++ ", port=" ++ toString s.port ++
    ", login=" ++ pyQuote s.login ++ ", key=" ++ pyQuoteOpt s.key ++ ")"

/-- The dataclass-generated `repr` of `Base`: fields in declaration order,
omitting `password`, which is declared `field(default='', repr=False)`
(src/config.py line 89); the nested `ssh` field renders via `SSH`'s repr. -/
def Base.reprStr (b : Base) : String :=
  "Base(ssh=" ++
    (match b.ssh with
      | none => "None"
      | some s => SSH.reprStr s) ++
    ", engine=" ++ pyQuote b.engine ++ ", server=" ++ pyQuote b.server ++
    ", port=" ++ toString b.port ++ ", user=" ++ pyQuote b.user ++
    ", base=" ++ pyQuote b.base ++ ")"

/-- Replace the password fields of a descriptor (the `Base` password and,
when present, the nested `SSH` password), leaving all other fields alone. -/
def setPasswords (b : Base) (pw : String) (spw : Option String) : Base :=
  { b with
    password := pw
    ssh := b.ssh.map (fun s => { s with password := spw }) }

/-- A value of the dict-shaped `bases` argument of `get_dict_of_bases`:
each requested name maps either to a display title (string) or directly to
a `Base` descriptor (bypassing the registry). -/
inductive AliasOrBase where
  | title (t : String)
  | descr (b : Base)

/-- The polymorphic `bases` selection argument of `get_dict_of_bases`
(src/execute.py lines 127-128, dispatched by `isinstance` at lines
165-184).  Python checks `str` first, then `dict`, then `Iterable`; any
other value — including the default `None` — reaches the final `else`
branch, modelled by `unsupported`. -/
inductive Selection where
  | single (name : String)
  | list (names : List String)
  | dict (entries : List (String × AliasOrBase))
  | unsupported

/-- Python-dict update with one key: overwrite in place if the key exists
(keeping its position), otherwise append.  This is `dict.update` for the
insertion-ordered dicts of Python 3.7+, on an association-list model. -/
def dictUpdate (d : List (String × Base)) (k : String) (v : Base) :
    List (String × Base) :=
  if (d.lookup k).isSome then
    d.map (fun kv => if kv.1 == k then (kv.1, v) else kv)
  else d ++ [(k, v)]

/-- `bases_dict.update(di)` for a small dict `di` (as produced by
`_gen_dict`, which returns zero or one entries). -/
def dictUpdateMany (d : List (String × Base)) :
    List (String × Base) → List (String × Base)
  | [] => d
  | kv :: rest => dictUpdateMany (dictUpdate d kv.1 kv.2) rest

/-- The inner `_gen_dict` helper of `get_dict_of_bases` (src/execute.py
lines 132-155): if the instance's registry `con` holds `base`, return a
one-entry dict keyed by the given title, or by the static name-mapping
table (`base_names`, passed here as `baseNames`) falling back to the raw
name; otherwise warn `Base ... not found` and return the empty dict. -/
def _gen_dict (baseNames : List (String × String))
    (con : List (String × Base)) (base : String) (title : Option String) :
    List (String × Base) × List LogMsg :=
  match con.lookup base with
  | some b =>
    ([(match title with
        | some t => t
        | none => (baseNames.lookup base).getD base, b)], [])
  | none => ([], [⟨.warning, "Base " ++ base ++ " not found"⟩])

/-- One step of the `Iterable` branch loop of `get_dict_of_bases`
(src/execute.py lines 176-181): resolve one name and fold its (zero- or
one-entry) dict and warnings into the accumulator. -/
def listStep (baseNames : List (String × String))
    (con : List (String × Base))
    (acc : List (String × Base) × List LogMsg) (n : String) :
    List (String × Base) × List LogMsg :=
  let di := _gen_dict baseNames con n none
  (dictUpdateMany acc.1 di.1, acc.2 ++ di.2)

/-- One step of the `dict` branch loop of `get_dict_of_bases`
(src/execute.py lines 167-175): a string value is a display title resolved
through the registry; a `Base` value is inserted directly under the
name-mapped key, bypassing the registry. -/
def dictStep (baseNames : List (String × String))
    (con : List (String × Base))
    (acc : List (String × Base) × List LogMsg) (ent : String × AliasOrBase) :
    List (String × Base) × List LogMsg :=
  match ent.2 with
  | .title v =>
    let di := _gen_dict baseNames con ent.1 (some v)
    (dictUpdateMany acc.1 di.1, acc.2 ++ di.2)
  | .descr b =>
    (dictUpdate acc.1 ((baseNames.lookup ent.1).getD ent.1) b, acc.2)

/-- `get_dict_of_bases` (src/execute.py lines 125-186).  The registry
(`cfg.connections`) is passed as the association list `conns`; the static
name-mapping table `dataloader.dicts.bases` (imported as `base_names`,
external to src/) is the parameter `baseNames`.  If the instance is absent,
log `No bases in instance ...` at error level and return the empty dict;
otherwise dispatch on the selection shape, the unsupported shape logging
`Bases list of type ... not supported` at error level.  No branch raises. -/
def get_dict_of_bases (baseNames : List (String × String))
    (conns : List (String × List (String × Base)))
    (inst : String) (bases : Selection) :
    List (String × Base) × List LogMsg :=
  match conns.lookup inst with
  | none => ([], [⟨.error, "No bases in instance " ++ inst⟩])
  | some con =>
    match bases with
    | .single s => _gen_dict baseNames con s none
    | .dict entries => entries.foldl (dictStep baseNames con) ([], [])
    | .list names => names.foldl (listStep baseNames con) ([], [])
    | .unsupported =>
      ([], [⟨.error, "Bases list of type not supported"⟩])

/-- Insert `x` at position `p` of a list (`list.take p ++ [x] ++ drop p`);
for `p ≤ length` this is the pandas `DataFrame.insert` column position. -/
def insertAt (l : List α) (p : Nat) (x : α) : List α :=
  l.take p ++ x :: l.drop p

/-- `df.insert(name_position, name_title, [s] * df.shape[0])`
(src/execute.py line 280): insert a column at an explicit index, with the
same value in every row. -/
def dfInsert (df : DF) (p : Nat) (ttl : String) (v : Val) : DF :=
  { columns := insertAt df.columns p ttl
    rows := df.rows.map (fun r => insertAt r p v) }

/-- `df.loc[:, name_title] = s` (src/execute.py line 286): overwrite the
column if a column of that name exists, otherwise append it as the last
column, with the same value in every row. -/
def setOrAppend (df : DF) (ttl : String) (v : Val) : DF :=
  match df.columns.findIdx? (fun c => c == ttl) with
  | some i =>
    { columns := df.columns
      rows := df.rows.map (fun r => r.set i v) }
  | none =>
    { columns := df.columns ++ [ttl]
      rows := df.rows.map (fun r => r ++ [v]) }

/-- The provenance-tagging step of the merge loop (src/execute.py lines
278-286), applied when `insert_name` is set: position given → `df.insert`,
otherwise `df.loc[:, name_title] = s`. -/
def tagDF (df : DF) (s : String) (pos : Option Nat) (ttl : String) : DF :=
  match pos with
  | some p => dfInsert df p ttl (Val.vstr s)
  | none => setOrAppend df ttl (Val.vstr s)

/-- `pd.concat(ds, ignore_index=True)` (src/execute.py line 289) for frames
sharing one column set — the regime of all claims; `ignore_index=True`
renumbers the row index, which positional lists do by construction. -/
def concatDFs (ds : List DF) : DF :=
  { columns := (ds.head?.map DF.columns).getD []
    rows := (ds.map DF.rows).flatten }

/-- The merge loop of `execute` (src/execute.py lines 274-289) applied to
the ordered per-target results: skip `None` results and zero-row tables,
tag when `insert_name` is set, and concatenate; with no contributing table
the result is `None`. -/
def mergeLoop (ordered : List (String × Option DF)) (insert_name : Bool)
    (pos : Option Nat) (ttl : String) : Option DF :=
  let ds := ordered.filterMap (fun sd =>
    match sd.2 with
    | none => none
    | some df =>
      if df.rows.length ≠ 0 then
        some (if insert_name then tagDF df sd.1 pos ttl else df)
      else none)
  if 0 < ds.length then some (concatDFs ds) else none

/-- The result-slot dictionary `res` after all threads joined
(src/execute.py lines 230-272): each worker runs `_execute`, which writes
`res[title] = df` only if `execute_on_base` returned; a worker whose
`execute_on_base` raised dies with the exception and leaves no entry.
Sibling workers are unaffected: every successful target's entry is present
regardless of other targets' failures. -/
def collectThreaded (envs : String → TargetEnv)
    (targets : List (String × Base)) : List (String × Option DF) :=
  targets.filterMap (fun sb =>
    match (execute_on_base sb.2 (envs sb.1)).1 with
    | .ok d => some (sb.1, d)
    | .error _ => none)

/-- The sequential (`no_threads=True`) loop (src/execute.py lines 265-268):
targets run strictly in order in the caller's thread, so the first raising
target propagates its exception out of `execute` and later targets are not
attempted. -/
def runSeq (envs : String → TargetEnv) :
    List (String × Base) → Except Phase (List (String × Option DF))
  | [] => .ok []
  | sb :: rest =>
    match (execute_on_base sb.2 (envs sb.1)).1 with
    | .error p => .error p
    | .ok d =>
      match runSeq envs rest with
      | .error p => .error p
      | .ok l => .ok ((sb.1, d) :: l)

/-- `df = res.pop(s)` for each key of `bases_dict` in order (src/execute.py
lines 274-275): a key with no entry raises `KeyError`.  Keys of
`bases_dict` are unique (it is a Python dict), so lookup without removal is
equivalent to `pop`. -/
def popAll (keys : List String) (res : List (String × Option DF)) :
    Except String (List (String × Option DF)) :=
  match keys with
  | [] => .ok []
  | k :: rest =>
    match res.lookup k with
    | none => .error k
    | some d =>
      match popAll rest res with
      | .error e => .error e
      | .ok l => .ok ((k, d) :: l)

/-- A Python exception escaping `execute`: the `KeyError` of `res.pop` on a
missing key, or a database/tunnel exception propagated from the sequential
path. -/
inductive PyErr where
  | keyError (k : String)
  | dbError (p : Phase)
deriving DecidableEq

/-- Outcome of a call to `execute`: a normal return (with the merged
DataFrame or `None`) or a raised exception. -/
inductive ExecuteOutcome where
  | ok (d : Option DF)
  | raised (e : PyErr)
deriving DecidableEq

/-- `execute` (src/execute.py lines 189-289): resolve the target dict, run
every target (threaded by default, sequentially when `no_threads`), then
merge in resolved order.  In threaded mode the merge pops each key from the
result dict, raising `KeyError` at the first target whose worker died; in
sequential mode a failure has already propagated before the merge. -/
def execute (baseNames : List (String × String))
    (conns : List (String × List (String × Base)))
    (inst : String) (bases : Selection)
    (insert_name : Bool) (name_position : Option Nat) (name_title : String)
    (no_threads : Bool) (envs : String → TargetEnv) : ExecuteOutcome :=
  let bases_dict := (get_dict_of_bases baseNames conns inst bases).1
  match no_threads with
  | true =>
    match runSeq envs bases_dict with
    | .error p => .raised (.dbError p)
    | .ok ordered => .ok (mergeLoop ordered insert_name name_position name_title)
  | false =>
    match popAll (bases_dict.map Prod.fst) (collectThreaded envs bases_dict) with
    | .error k => .raised (.keyError k)
    | .ok ordered => .ok (mergeLoop ordered insert_name name_position name_title)

/-
Helper functions for stating and proving properties of the above.
-/

/-- The result value of one connection attempt, ignoring the trace:
`runConn`'s first component depends only on the environment. -/
def connResult (env : TargetEnv) : Except Phase (Option DF) :=
  match env.connect with
  | .error _ => .error .connect
  | .ok _ =>
    match env.exec with
    | .error _ => .error .query
    | .ok (.rows cols rws) => .ok (some ⟨cols, rws⟩)
    | .ok (.affected _) => .ok none

/-- The data a completed (non-raising) attempt contributes. -/
def okResult : Except Phase (Option DF) → Option DF
  | .ok d => d
  | .error _ => none

/-- The ordered per-target results when every target completes. -/
def allResults (envs : String → TargetEnv) (targets : List (String × Base)) :
    List (String × Option DF) :=
  targets.map (fun sb => (sb.1, okResult (execute_on_base sb.2 (envs sb.1)).1))

/-- Alias of the first target (in resolved order) whose attempt raised. -/
def firstFailedAlias (envs : String → TargetEnv)
    (targets : List (String × Base)) : Option String :=
  targets.findSome? (fun sb =>
    match (execute_on_base sb.2 (envs sb.1)).1 with
    | .error _ => some sb.1
    | .ok _ => none)

/-- Phase of the first target (in resolved order) whose attempt raised. -/
def firstFailurePhase (envs : String → TargetEnv)
    (targets : List (String × Base)) : Option Phase :=
  targets.findSome? (fun sb =>
    match (execute_on_base sb.2 (envs sb.1)).1 with
    | .error p => some p
    | .ok _ => none)

/-- Number of occurrences of an event in a trace. -/
def countEvent (e : Event) (l : List Event) : Nat := l.count e

end DL

namespace DL

/-
General lemmas about one execution attempt.
-/

/-- The result value of `runConn` ignores the tunnel port (the port only
enters the URL recorded in the trace). -/
theorem runConn_fst (b : Base) (tp : Option Nat) (env : TargetEnv) :
    (runConn b tp env).1 = connResult env := by
  unfold runConn connResult
  cases env.connect with
  | error e => rfl
  | ok u =>
    cases env.exec with
    | error e => rfl
    | ok o => cases o <;> rfl

/-- When the tunnel (if any) starts successfully, the result value of
`execute_on_base` is determined by the connection/execution outcomes. -/
theorem fst_execute_on_base (b : Base) (env : TargetEnv) (p : Nat)
    (ht : env.tunnelStart = .ok p) :
    (execute_on_base b env).1 = connResult env := by
  rw [← runConn_fst b (some p) env]
  unfold execute_on_base
  cases hs : b.ssh with
  | none => rw [runConn_fst, runConn_fst]
  | some s =>
    rw [ht]
    rcases hr : runConn b (some p) env with ⟨r, evs⟩
    cases r <;> simp [hr]

end DL

namespace DL

/-- C2: evaluation of `execute_on_base` at a tunneled target.  On the
success path the tunnel opened for the target is closed exactly once, but
when statement execution raises (`QueryError`) or the connection fails, the
trace shows the tunnel opened and never closed: `tunnel.stop()` is not
reached on any raising path (no try/finally in the source), contradicting
the claim that the tunnel is closed on every exit path. -/
theorem tunnel_not_closed_on_error :
    (countEvent .tunnelClosed
        (execute_on_base { ssh := some {} }
          ⟨.ok 5, .ok (), .ok (.rows ["id"] [[.vint 1]])⟩).2 = 1
      ∧ countEvent .tunnelOpened
          (execute_on_base { ssh := some {} }
            ⟨.ok 5, .ok (), .ok (.rows ["id"] [[.vint 1]])⟩).2 = 1)
  ∧ ((execute_on_base { ssh := some {} } ⟨.ok 5, .ok (), .error ()⟩).1
        = .error .query
      ∧ countEvent .tunnelOpened
          (execute_on_base { ssh := some {} } ⟨.ok 5, .ok (), .error ()⟩).2 = 1
      ∧ countEvent .tunnelClosed
          (execute_on_base { ssh := some {} } ⟨.ok 5, .ok (), .error ()⟩).2 = 0)
  ∧ ((execute_on_base { ssh := some {} }
        ⟨.ok 5, .error (), .ok (.affected 0)⟩).1 = .error .connect
      ∧ countEvent .tunnelOpened
          (execute_on_base { ssh := some {} }
            ⟨.ok 5, .error (), .ok (.affected 0)⟩).2 = 1
      ∧ countEvent .tunnelClosed
          (execute_on_base { ssh := some {} }
            ⟨.ok 5, .error (), .ok (.affected 0)⟩).2 = 0) :=
  ⟨⟨rfl, rfl⟩, ⟨rfl, rfl, rfl⟩, rfl, rfl, rfl⟩

/-- C7 counterexample: a row-returning statement still commits.  The commit
call sits outside the if/else in the source (line 112, with a comment
saying this is deliberate), so commit is not exclusive to the
non-row-returning branch as the claim states. -/
theorem commit_on_row_returning :
    countEvent .commit
        (execute_on_base {} ⟨.ok 0, .ok (), .ok (.rows ["id"] [[.vint 1]])⟩).2
      = 1
    ∧ (execute_on_base {} ⟨.ok 0, .ok (), .ok (.rows ["id"] [[.vint 1]])⟩).1
        = .ok (some ⟨["id"], [[.vint 1]]⟩) :=
  ⟨rfl, rfl⟩

/-- C7 (amended): a row-returning statement materializes all rows and
column names into a DataFrame; a non-row-returning statement yields no
DataFrame and its affected-row count is logged; the driver commit is
performed in BOTH branches (it is not exclusive to the non-row-returning
branch). -/
theorem execute_on_base_branches :
    (∀ (b : Base) (p : Nat) (cols : List String) (rws : List (List Val)),
      (execute_on_base b ⟨.ok p, .ok (), .ok (.rows cols rws)⟩).1
          = .ok (some ⟨cols, rws⟩)
        ∧ Event.commit
            ∈ (execute_on_base b ⟨.ok p, .ok (), .ok (.rows cols rws)⟩).2)
  ∧ (∀ (b : Base) (p : Nat) (n : Int),
      (execute_on_base b ⟨.ok p, .ok (), .ok (.affected n)⟩).1 = .ok none
        ∧ Event.logAffected n
            ∈ (execute_on_base b ⟨.ok p, .ok (), .ok (.affected n)⟩).2
        ∧ Event.commit
            ∈ (execute_on_base b ⟨.ok p, .ok (), .ok (.affected n)⟩).2) := by
  constructor
  · intro b p cols rws
    cases hs : b.ssh <;> simp [execute_on_base, runConn, hs]
  · intro b p n
    cases hs : b.ssh <;> simp [execute_on_base, runConn, hs]

/-- C8: the password fields of `SSH` and `Base` (both declared with
`repr=False`) never appear in the dataclass repr: replacing them changes
nothing in the rendered diagnostic string, so two descriptors differing
only in their password fields render identically. -/
theorem password_not_in_repr :
    (∀ (s : SSH) (pw : Option String),
      SSH.reprStr { s with password := pw } = SSH.reprStr s)
  ∧ (∀ (b : Base) (pw : String) (spw : Option String),
      Base.reprStr (setPasswords b pw spw) = Base.reprStr b) := by
  constructor
  · intro s pw
    rfl
  · intro b pw spw
    cases hs : b.ssh <;> simp [Base.reprStr, setPasswords, SSH.reprStr, hs]

/-- C9: the connection URL built by `execute_on_base` keeps the target's
own declared server address as host and only switches the port: with a
tunnel the port becomes the tunnel's local bound port, without one the
target's own host and port are used unchanged.  The last two conjuncts
show the URL the attempt actually connects with (recorded in the trace) in
the tunneled and untunneled cases. -/
theorem url_port_only_replaced :
    (∀ (b : Base) (p : Nat),
      connectionURL b (some p) = { connectionURL b none with port := p })
  ∧ (∀ (b : Base),
      connectionURL b none
        = { drivername := b.engine, username := b.user,
            password := b.password, host := b.server, port := b.port,
            database := b.base })
  ∧ (∀ (b : Base) (sv : SSH) (p : Nat) (cn : Except Unit Unit)
        (ex : Except Unit SqlOutcome),
      Event.connectAttempt (connectionURL { b with ssh := some sv } (some p))
        ∈ (execute_on_base { b with ssh := some sv } ⟨.ok p, cn, ex⟩).2)
  ∧ (∀ (b : Base) (cn : Except Unit Unit) (ex : Except Unit SqlOutcome)
        (ts : Except Unit Nat),
      Event.connectAttempt (connectionURL { b with ssh := none } none)
        ∈ (execute_on_base { b with ssh := none } ⟨ts, cn, ex⟩).2) := by
  refine ⟨fun b p => rfl, fun b => rfl, ?_, ?_⟩
  · intro b sv p cn ex
    cases cn with
    | error e => simp [execute_on_base, runConn]
    | ok u =>
      cases ex with
      | error e => simp [execute_on_base, runConn]
      | ok o => cases o <;> simp [execute_on_base, runConn]
  · intro b cn ex ts
    cases cn with
    | error e => simp [execute_on_base, runConn]
    | ok u =>
      cases ex with
      | error e => simp [execute_on_base, runConn]
      | ok o => cases o <;> simp [execute_on_base, runConn]

/-- C10: a selection of unsupported shape (the Python `else` branch, hit in
particular by the default `None`) makes `get_dict_of_bases` return an empty
resolved target set with a diagnostic logged and no exception; hence
`execute` with such a selection always returns the absent no-data value. -/
theorem unsupported_selection_empty :
    (∀ (baseNames : List (String × String))
        (conns : List (String × List (String × Base))) (inst : String),
      (get_dict_of_bases baseNames conns inst .unsupported).1 = []
        ∧ (get_dict_of_bases baseNames conns inst .unsupported).2 ≠ [])
  ∧ (∀ (baseNames : List (String × String))
        (conns : List (String × List (String × Base))) (inst : String)
        (ins : Bool) (pos : Option Nat) (ttl : String) (nt : Bool)
        (envs : String → TargetEnv),
      execute baseNames conns inst .unsupported ins pos ttl nt envs
        = .ok none) := by
  have h1 : ∀ (baseNames : List (String × String))
      (conns : List (String × List (String × Base))) (inst : String),
      (get_dict_of_bases baseNames conns inst Selection.unsupported).1 = [] := by
    intro baseNames conns inst
    unfold get_dict_of_bases
    cases conns.lookup inst <;> rfl
  constructor
  · intro baseNames conns inst
    refine ⟨h1 .., ?_⟩
    unfold get_dict_of_bases
    cases conns.lookup inst <;> simp
  · intro baseNames conns inst ins pos ttl nt envs
    unfold execute
    rw [h1]
    cases nt <;> rfl

end DL

namespace DL

/-
Lemmas about the fan-out scheduler and the result-collection dict.
-/

/-- Unfolding of `collectThreaded` over the head target. -/
theorem collectThreaded_cons (envs : String → TargetEnv)
    (t : String × Base) (ts : List (String × Base)) :
    collectThreaded envs (t :: ts)
      = match (execute_on_base t.2 (envs t.1)).1 with
        | .ok d => (t.1, d) :: collectThreaded envs ts
        | .error _ => collectThreaded envs ts := by
  simp only [collectThreaded, List.filterMap_cons]
  cases (execute_on_base t.2 (envs t.1)).1 <;> rfl

/-- A key outside the target list has no slot in the result dict. -/
theorem lookup_collectThreaded_none (envs : String → TargetEnv)
    (targets : List (String × Base)) (k : String)
    (h : k ∉ targets.map Prod.fst) :
    (collectThreaded envs targets).lookup k = none := by
  induction targets with
  | nil => rfl
  | cons t ts ih =>
    rw [List.map_cons, List.mem_cons, not_or] at h
    obtain ⟨h1, h2⟩ := h
    rw [collectThreaded_cons]
    cases hr : (execute_on_base t.2 (envs t.1)).1 with
    | error e => exact ih h2
    | ok d =>
      have hb : (k == t.1) = false := by
        simp only [beq_eq_false_iff_ne]
        exact h1
      simp only [List.lookup, hb]
      exact ih h2

/-- Popping keys ignores a leading slot whose key is not among them. -/
theorem popAll_skip (k : String) (d : Option DF) (ks : List String)
    (res : List (String × Option DF)) (h : k ∉ ks) :
    popAll ks ((k, d) :: res) = popAll ks res := by
  induction ks with
  | nil => rfl
  | cons k2 ks ih =>
    rw [List.mem_cons, not_or] at h
    obtain ⟨h1, h2⟩ := h
    have hb : (k2 == k) = false := by
      simp only [beq_eq_false_iff_ne]
      exact fun he => h1 he.symm
    simp only [popAll, List.lookup, hb]
    rw [ih h2]

/-- A target that completed has its slot in the result dict, whatever
happened to the other targets: worker failures do not disturb siblings. -/
theorem mem_collectThreaded (envs : String → TargetEnv)
    (targets : List (String × Base)) (sb : String × Base) (d : Option DF)
    (hm : sb ∈ targets) (hr : (execute_on_base sb.2 (envs sb.1)).1 = .ok d) :
    (sb.1, d) ∈ collectThreaded envs targets := by
  unfold collectThreaded
  rw [List.mem_filterMap]
  exact ⟨sb, hm, by simp only [hr]⟩

/-- Characterization of the threaded merge input: popping all resolved
keys out of the result dict fails with the first failed target's alias,
and otherwise returns the ordered completed results. -/
theorem threaded_char (envs : String → TargetEnv)
    (targets : List (String × Base))
    (hnd : (targets.map Prod.fst).Nodup) :
    popAll (targets.map Prod.fst) (collectThreaded envs targets)
      = match firstFailedAlias envs targets with
        | some s => .error s
        | none => .ok (allResults envs targets) := by
  induction targets with
  | nil => rfl
  | cons t ts ih =>
    rw [List.map_cons] at hnd
    have h1 : t.1 ∉ ts.map Prod.fst := (List.nodup_cons.mp hnd).1
    have h2 := (List.nodup_cons.mp hnd).2
    rw [List.map_cons, collectThreaded_cons]
    cases hr : (execute_on_base t.2 (envs t.1)).1 with
    | error e =>
      have hf : firstFailedAlias envs (t :: ts) = some t.1 := by
        simp only [firstFailedAlias, List.findSome?_cons, hr]
      rw [hf]
      simp only [popAll]
      rw [lookup_collectThreaded_none envs ts t.1 h1]
    | ok d =>
      have hf : firstFailedAlias envs (t :: ts) = firstFailedAlias envs ts := by
        simp only [firstFailedAlias, List.findSome?_cons, hr]
      have ha : allResults envs (t :: ts) = (t.1, d) :: allResults envs ts := by
        simp only [allResults, List.map_cons, hr, okResult]
      rw [hf, ha]
      simp only [popAll, List.lookup, beq_self_eq_true]
      rw [popAll_skip t.1 d (ts.map Prod.fst) (collectThreaded envs ts) h1]
      rw [ih h2]
      cases firstFailedAlias envs ts <;> rfl

/-- Characterization of the sequential loop: it propagates the first
failure's phase, and otherwise yields the ordered completed results. -/
theorem seq_char (envs : String → TargetEnv)
    (targets : List (String × Base)) :
    runSeq envs targets
      = match firstFailurePhase envs targets with
        | some p => .error p
        | none => .ok (allResults envs targets) := by
  induction targets with
  | nil => rfl
  | cons t ts ih =>
    simp only [runSeq]
    cases hr : (execute_on_base t.2 (envs t.1)).1 with
    | error e =>
      have hf : firstFailurePhase envs (t :: ts) = some e := by
        simp only [firstFailurePhase, List.findSome?_cons, hr]
      rw [hf]
    | ok d =>
      have hf : firstFailurePhase envs (t :: ts) = firstFailurePhase envs ts := by
        simp only [firstFailurePhase, List.findSome?_cons, hr]
      have ha : allResults envs (t :: ts) = (t.1, d) :: allResults envs ts := by
        simp only [allResults, List.map_cons, hr, okResult]
      rw [hf, ha, ih]
      cases firstFailurePhase envs ts <;> rfl

end DL

namespace DL

/-- If every target's attempt completes, no failure is found in either
direction of scanning. -/
theorem firstFailedAlias_none (envs : String → TargetEnv)
    (targets : List (String × Base))
    (h : ∀ sb ∈ targets, ∃ d, (execute_on_base sb.2 (envs sb.1)).1 = .ok d) :
    firstFailedAlias envs targets = none
      ∧ firstFailurePhase envs targets = none := by
  induction targets with
  | nil => exact ⟨rfl, rfl⟩
  | cons t ts ih =>
    obtain ⟨d, hd⟩ := h t (List.mem_cons_self ..)
    have ihx := ih (fun sb hm => h sb (List.mem_cons_of_mem _ hm))
    constructor
    · simp only [firstFailedAlias, List.findSome?_cons, hd]
      exact ihx.1
    · simp only [firstFailurePhase, List.findSome?_cons, hd]
      exact ihx.2

/-- The merge loop yields the absent value when every completed result is
`None` or a zero-row table. -/
theorem mergeLoop_none (ordered : List (String × Option DF)) (ins : Bool)
    (pos : Option Nat) (ttl : String)
    (h : ∀ sd ∈ ordered, sd.2 = none ∨ ∃ df, sd.2 = some df ∧ df.rows = []) :
    mergeLoop ordered ins pos ttl = none := by
  unfold mergeLoop
  have hds : (ordered.filterMap (fun sd =>
      match sd.2 with
      | none => none
      | some df =>
        if df.rows.length ≠ 0 then
          some (if ins then tagDF df sd.1 pos ttl else df)
        else none)) = [] := by
    rw [List.filterMap_eq_nil_iff]
    intro sd hm
    rcases h sd hm with hnone | ⟨df, hdf, hrows⟩
    · simp [hnone]
    · simp [hdf, hrows]
  rw [hds]
  rfl

/-- C1 counterexample: two resolved targets, the second failing during
statement execution.  In concurrent mode the overall `execute` call does
not return normally with a partial result: the failed worker leaves no slot
in `res`, so the merge raises `KeyError`; in sequential mode the target's
own error propagates out of `execute`.  In both modes the call raises
rather than returning the partial unified result the claim promises. -/
theorem execute_threaded_failure_raises :
    execute [] [("replica", [("a", {}), ("b", {})])] "replica"
        (.list ["a", "b"]) false none "base" false
        (fun s => if s = "b" then ⟨.ok 0, .ok (), .error ()⟩
                  else ⟨.ok 0, .ok (), .ok (.rows ["id"] [[.vint 1]])⟩)
      = .raised (.keyError "b")
    ∧ execute [] [("replica", [("a", {}), ("b", {})])] "replica"
        (.list ["a", "b"]) false none "base" true
        (fun s => if s = "b" then ⟨.ok 0, .ok (), .error ()⟩
                  else ⟨.ok 0, .ok (), .ok (.rows ["id"] [[.vint 1]])⟩)
      = .raised (.dbError .query) :=
  ⟨rfl, rfl⟩

/-- C1 (amended): in concurrent mode a failing target does not cancel or
disturb sibling attempts — every completed target's result is recorded
(third conjunct) — but `execute` does not return normally when any target
fails: the merge raises `KeyError` at the first failed alias in resolved
order (first conjunct); in sequential mode the first failure propagates
immediately, aborting the remaining targets (second conjunct).  Only when
every target completes does `execute` return the merged result. -/
theorem execute_failure_modes
    (baseNames : List (String × String))
    (conns : List (String × List (String × Base)))
    (inst : String) (sel : Selection) (ins : Bool) (pos : Option Nat)
    (ttl : String) (envs : String → TargetEnv)
    (targets : List (String × Base))
    (ht : (get_dict_of_bases baseNames conns inst sel).1 = targets)
    (hnd : (targets.map Prod.fst).Nodup) :
    (execute baseNames conns inst sel ins pos ttl false envs
        = match firstFailedAlias envs targets with
          | some s => .raised (.keyError s)
          | none => .ok (mergeLoop (allResults envs targets) ins pos ttl))
    ∧ (execute baseNames conns inst sel ins pos ttl true envs
        = match firstFailurePhase envs targets with
          | some p => .raised (.dbError p)
          | none => .ok (mergeLoop (allResults envs targets) ins pos ttl))
    ∧ (∀ sb ∈ targets, ∀ d, (execute_on_base sb.2 (envs sb.1)).1 = .ok d →
        (sb.1, d) ∈ collectThreaded envs targets) := by
  refine ⟨?_, ?_, fun sb hm d hr => mem_collectThreaded envs targets sb d hm hr⟩
  · simp only [execute, ht]
    rw [threaded_char envs targets hnd]
    cases firstFailedAlias envs targets <;> rfl
  · simp only [execute, ht]
    rw [seq_char envs targets]
    cases firstFailurePhase envs targets <;> rfl

/-- C1 witness: the amended characterization applied to two concrete
targets whose second fails, in both modes. -/
theorem execute_failure_modes_witness :
    execute [] [("replica", [("a", {}), ("c", {})])] "replica"
        (.list ["a", "c"]) false none "t" false
        (fun s => if s = "c" then ⟨.ok 0, .ok (), .error ()⟩
                  else ⟨.ok 0, .ok (), .ok (.rows ["id"] [[.vint 1]])⟩)
      = .raised (.keyError "c")
    ∧ execute [] [("replica", [("a", {}), ("c", {})])] "replica"
        (.list ["a", "c"]) false none "t" true
        (fun s => if s = "c" then ⟨.ok 0, .ok (), .error ()⟩
                  else ⟨.ok 0, .ok (), .ok (.rows ["id"] [[.vint 1]])⟩)
      = .raised (.dbError .query) := by
  have h := execute_failure_modes [] [("replica", [("a", {}), ("c", {})])]
    "replica" (.list ["a", "c"]) false none "t"
    (fun s => if s = "c" then ⟨.ok 0, .ok (), .error ()⟩
              else ⟨.ok 0, .ok (), .ok (.rows ["id"] [[.vint 1]])⟩)
    [("a", ({} : Base)), ("c", ({} : Base))] rfl (by decide)
  exact ⟨h.1, h.2.1⟩

/-- C5 counterexample: a single target whose per-target result is errored.
The claim says the merge outcome is then the absent value `None`; in fact
`execute` raises (`KeyError` in the default concurrent mode), which is not
the absent no-data value. -/
theorem errored_target_not_absent :
    execute [] [("replica", [("a", {})])] "replica" (.single "a")
        false none "base" false (fun _ => ⟨.ok 0, .ok (), .error ()⟩)
      = .raised (.keyError "a")
    ∧ (ExecuteOutcome.raised (.keyError "a") ≠ .ok none) :=
  ⟨rfl, by decide⟩

/-- C5 (amended): if every per-target result is absent (`None`) or a
zero-row table, `execute` returns the explicit absent no-data value `None`
in both modes, distinct from any non-empty-or-empty table and from a raised
error; an errored target instead makes `execute` raise. -/
theorem no_rows_yields_none
    (baseNames : List (String × String))
    (conns : List (String × List (String × Base)))
    (inst : String) (sel : Selection) (ins : Bool) (pos : Option Nat)
    (ttl : String) (nt : Bool) (envs : String → TargetEnv)
    (targets : List (String × Base))
    (ht : (get_dict_of_bases baseNames conns inst sel).1 = targets)
    (hnd : (targets.map Prod.fst).Nodup)
    (h : ∀ sb ∈ targets, ∃ d, (execute_on_base sb.2 (envs sb.1)).1 = .ok d
          ∧ (d = none ∨ ∃ df, d = some df ∧ df.rows = [])) :
    execute baseNames conns inst sel ins pos ttl nt envs = .ok none
    ∧ (∀ df : DF, (ExecuteOutcome.ok none : ExecuteOutcome) ≠ .ok (some df))
    ∧ (∀ e : PyErr, (ExecuteOutcome.ok none : ExecuteOutcome) ≠ .raised e) := by
  have hok : ∀ sb ∈ targets, ∃ d, (execute_on_base sb.2 (envs sb.1)).1 = .ok d :=
    fun sb hm => ⟨(h sb hm).choose, (h sb hm).choose_spec.1⟩
  have hff := firstFailedAlias_none envs targets hok
  have hmerge : mergeLoop (allResults envs targets) ins pos ttl = none := by
    apply mergeLoop_none
    intro sd hm
    simp only [allResults, List.mem_map] at hm
    obtain ⟨sb, hsb, hval⟩ := hm
    obtain ⟨d, hd, hprop⟩ := h sb hsb
    subst hval
    simp only [hd, okResult]
    exact hprop
  refine ⟨?_, fun df hcon => Option.noConfusion (ExecuteOutcome.ok.inj hcon),
    fun e hcon => ExecuteOutcome.noConfusion hcon⟩
  cases nt with
  | true =>
    simp only [execute, ht]
    rw [seq_char envs targets, hff.2]
    exact congrArg ExecuteOutcome.ok hmerge
  | false =>
    simp only [execute, ht]
    rw [threaded_char envs targets hnd, hff.1]
    exact congrArg ExecuteOutcome.ok hmerge

/-- C5 witness: one target contributing a zero-row table; `execute`
returns the absent value. -/
theorem no_rows_yields_none_witness :
    execute [] [("replica", [("a", {})])] "replica" (.single "a")
        false none "base" false
        (fun _ => ⟨.ok 0, .ok (), .ok (.rows ["id"] [])⟩)
      = .ok none := by
  have h := no_rows_yields_none [] [("replica", [("a", {})])] "replica"
    (.single "a") false none "base" false
    (fun _ => ⟨.ok 0, .ok (), .ok (.rows ["id"] [])⟩)
    [("a", ({} : Base))] rfl (by decide)
    (by
      intro sb hm
      rw [List.mem_singleton] at hm
      subst hm
      exact ⟨some ⟨["id"], []⟩, rfl, Or.inr ⟨⟨["id"], []⟩, rfl, rfl⟩⟩)
  exact h.1

end DL

namespace DL

/-- An unknown column name has no index in the column list (the
`df.loc[:, name_title] = s` assignment appends in that case). -/
theorem findIdx?_beq_none (ttl : String) (cols : List String)
    (hc : ttl ∉ cols) :
    ∀ i, cols.findIdx? (fun c => c == ttl) i = none := by
  induction cols with
  | nil => intro i; rfl
  | cons c cs ih =>
    intro i
    rw [List.mem_cons, not_or] at hc
    have hb : (c == ttl) = false := by
      simp only [beq_eq_false_iff_ne]
      exact fun he => hc.1 he.symm
    simp only [List.findIdx?, hb]
    exact ih hc.2 (i + 1)

/-- Environments for a three-target scenario: target B returns rows `rB`,
target C returns rows `rC`, and any other target a zero-row table, all
without failures. -/
def envs3 (cols : List String) (rB rC : List (List Val)) :
    String → TargetEnv :=
  fun s =>
    if s = "B" then ⟨.ok 0, .ok (), .ok (.rows cols rB)⟩
    else if s = "C" then ⟨.ok 0, .ok (), .ok (.rows cols rC)⟩
    else ⟨.ok 0, .ok (), .ok (.rows cols [])⟩

/-- C3: with resolved order [A, B, C] where only B and C produce rows, the
unified result is exactly B's rows immediately followed by C's rows (and
the row index is positional over the concatenated list), in both the
concurrent and the sequential mode; the merge follows resolved order, not
completion order (the model has no completion order at all: the merge input
is indexed by the resolved dict). -/
theorem merge_resolved_order (bA bB bC : Base) (cols : List String)
    (rB rC : List (List Val)) (hrB : rB ≠ []) (hrC : rC ≠ []) :
    execute [] [("replica", [("A", bA), ("B", bB), ("C", bC)])] "replica"
        (.list ["A", "B", "C"]) false none "base" false (envs3 cols rB rC)
      = .ok (some ⟨cols, rB ++ rC⟩)
    ∧ execute [] [("replica", [("A", bA), ("B", bB), ("C", bC)])] "replica"
        (.list ["A", "B", "C"]) false none "base" true (envs3 cols rB rC)
      = .ok (some ⟨cols, rB ++ rC⟩) := by
  have ht : (get_dict_of_bases []
      [("replica", [("A", bA), ("B", bB), ("C", bC)])] "replica"
      (.list ["A", "B", "C"])).1 = [("A", bA), ("B", bB), ("C", bC)] := rfl
  have eA : (execute_on_base bA (envs3 cols rB rC "A")).1
      = .ok (some ⟨cols, []⟩) := by
    rw [fst_execute_on_base bA (envs3 cols rB rC "A") 0 rfl]
    simp [connResult, envs3]
  have eB : (execute_on_base bB (envs3 cols rB rC "B")).1
      = .ok (some ⟨cols, rB⟩) := by
    rw [fst_execute_on_base bB (envs3 cols rB rC "B") 0 rfl]
    simp [connResult, envs3]
  have eC : (execute_on_base bC (envs3 cols rB rC "C")).1
      = .ok (some ⟨cols, rC⟩) := by
    rw [fst_execute_on_base bC (envs3 cols rB rC "C") 0 rfl]
    simp [connResult, envs3]
  have hok : ∀ sb ∈ [("A", bA), ("B", bB), ("C", bC)],
      ∃ d, (execute_on_base sb.2 (envs3 cols rB rC sb.1)).1 = .ok d := by
    intro sb hm
    simp only [List.mem_cons, List.not_mem_nil, or_false] at hm
    rcases hm with h | h | h <;> subst h
    · exact ⟨_, eA⟩
    · exact ⟨_, eB⟩
    · exact ⟨_, eC⟩
  have hffn := firstFailedAlias_none (envs3 cols rB rC)
    [("A", bA), ("B", bB), ("C", bC)] hok
  have har : allResults (envs3 cols rB rC) [("A", bA), ("B", bB), ("C", bC)]
      = [("A", some ⟨cols, []⟩), ("B", some ⟨cols, rB⟩),
         ("C", some ⟨cols, rC⟩)] := by
    simp only [allResults, List.map_cons, List.map_nil, eA, eB, eC, okResult]
  have hm : mergeLoop [("A", some (⟨cols, []⟩ : DF)),
      ("B", some (⟨cols, rB⟩ : DF)), ("C", some (⟨cols, rC⟩ : DF))]
      false none "base" = some ⟨cols, rB ++ rC⟩ := by
    simp [mergeLoop, concatDFs, hrB, hrC]
  have hfin : mergeLoop (allResults (envs3 cols rB rC)
      [("A", bA), ("B", bB), ("C", bC)]) false none "base"
      = some ⟨cols, rB ++ rC⟩ := by
    rw [har]
    exact hm
  have hnd : ((([("A", bA), ("B", bB), ("C", bC)]).map
      (Prod.fst (α := String) (β := Base)))).Nodup := by
    simp only [List.map_cons, List.map_nil]
    decide
  constructor
  · simp only [execute, ht]
    rw [threaded_char (envs3 cols rB rC) _ hnd, hffn.1]
    exact congrArg ExecuteOutcome.ok hfin
  · simp only [execute, ht]
    rw [seq_char (envs3 cols rB rC) _, hffn.2]
    exact congrArg ExecuteOutcome.ok hfin

/-- C3 witness: concrete rows for B and C; the unified result is B's rows
then C's rows with the positional index renumbered, in both modes. -/
theorem merge_resolved_order_witness :
    execute [] [("replica", [("A", {}), ("B", {}), ("C", {})])] "replica"
        (.list ["A", "B", "C"]) false none "base" false
        (envs3 ["id"] [[.vint 10], [.vint 11]] [[.vint 20]])
      = .ok (some ⟨["id"], [[.vint 10], [.vint 11], [.vint 20]]⟩)
    ∧ execute [] [("replica", [("A", {}), ("B", {}), ("C", {})])] "replica"
        (.list ["A", "B", "C"]) false none "base" true
        (envs3 ["id"] [[.vint 10], [.vint 11]] [[.vint 20]])
      = .ok (some ⟨["id"], [[.vint 10], [.vint 11], [.vint 20]]⟩) := by
  have h := merge_resolved_order {} {} {} ["id"]
    [[.vint 10], [.vint 11]] [[.vint 20]] (by decide) (by decide)
  exact ⟨h.1, h.2⟩

end DL

namespace DL

/-- A single-target environment: every target returns the given rows. -/
def envs1 (cols : List String) (rws : List (List Val)) :
    String → TargetEnv :=
  fun _ => ⟨.ok 0, .ok (), .ok (.rows cols rws)⟩

/-- C4: for a target of alias `al` contributing a non-empty table, with
`insert_name` enabled, a column named `ttl` holding the alias is added to
every row: at column index `p` when a position is given (pandas
`df.insert`, valid for `p ≤ number of columns`), otherwise appended as the
last column (`df.loc[:, ttl] = s`, for a fresh column name). -/
theorem provenance_column_insertion (b : Base) (al ttl : String)
    (cols : List String) (rws : List (List Val)) (p : Nat)
    (hr : rws ≠ []) (_hp : p ≤ cols.length) (hc : ttl ∉ cols) :
    (execute [] [("replica", [(al, b)])] "replica" (.single al) true (some p)
        ttl false (envs1 cols rws)
      = .ok (some ⟨insertAt cols p ttl,
          rws.map (fun r => insertAt r p (Val.vstr al))⟩))
    ∧ (execute [] [("replica", [(al, b)])] "replica" (.single al) true none
        ttl false (envs1 cols rws)
      = .ok (some ⟨cols ++ [ttl], rws.map (fun r => r ++ [Val.vstr al])⟩)) := by
  have ht : (get_dict_of_bases [] [("replica", [(al, b)])] "replica"
      (.single al)).1 = [(al, b)] := by
    simp only [get_dict_of_bases, _gen_dict, List.lookup, beq_self_eq_true,
      Option.getD]
  have eS : ∀ s : String, (execute_on_base b (envs1 cols rws s)).1
      = .ok (some ⟨cols, rws⟩) := by
    intro s
    rw [fst_execute_on_base b (envs1 cols rws s) 0 rfl]
    rfl
  have hok : ∀ sb ∈ [(al, b)],
      ∃ d, (execute_on_base sb.2 (envs1 cols rws sb.1)).1 = .ok d := by
    intro sb hm
    rw [List.mem_singleton] at hm
    subst hm
    exact ⟨_, eS al⟩
  have hffn := firstFailedAlias_none (envs1 cols rws) [(al, b)] hok
  have har : allResults (envs1 cols rws) [(al, b)]
      = [(al, some ⟨cols, rws⟩)] := by
    simp only [allResults, List.map_cons, List.map_nil, eS, okResult]
  have hnd : (([(al, b)]).map (Prod.fst (α := String) (β := Base))).Nodup := by
    simp only [List.map_cons, List.map_nil]
    exact List.nodup_singleton al
  have hm1 : mergeLoop [(al, some (⟨cols, rws⟩ : DF))] true (some p) ttl
      = some ⟨insertAt cols p ttl,
          rws.map (fun r => insertAt r p (Val.vstr al))⟩ := by
    simp [mergeLoop, tagDF, dfInsert, concatDFs, hr]
  have hm2 : mergeLoop [(al, some (⟨cols, rws⟩ : DF))] true none ttl
      = some ⟨cols ++ [ttl], rws.map (fun r => r ++ [Val.vstr al])⟩ := by
    simp [mergeLoop, tagDF, setOrAppend, concatDFs, hr,
      findIdx?_beq_none ttl cols hc 0]
  constructor
  · simp only [execute, ht]
    rw [threaded_char _ _ hnd, hffn.1]
    refine congrArg ExecuteOutcome.ok ?_
    rw [har]
    exact hm1
  · simp only [execute, ht]
    rw [threaded_char _ _ hnd, hffn.1]
    refine congrArg ExecuteOutcome.ok ?_
    rw [har]
    exact hm2

/-- C4 witness: the spec example — alias "Replica A", rows
[{id:1},{id:2}], position 0, column name "base" — yields
[{base:"Replica A", id:1}, {base:"Replica A", id:2}]; without a position
the alias column lands last. -/
theorem provenance_column_insertion_witness :
    (execute [] [("replica", [("Replica A", {})])] "replica"
        (.single "Replica A") true (some 0) "base" false
        (envs1 ["id"] [[.vint 1], [.vint 2]])
      = .ok (some ⟨["base", "id"],
          [[.vstr "Replica A", .vint 1], [.vstr "Replica A", .vint 2]]⟩))
    ∧ (execute [] [("replica", [("Replica A", {})])] "replica"
        (.single "Replica A") true none "base" false
        (envs1 ["id"] [[.vint 1], [.vint 2]])
      = .ok (some ⟨["id", "base"],
          [[.vint 1, .vstr "Replica A"], [.vint 2, .vstr "Replica A"]]⟩)) := by
  have h := provenance_column_insertion {} "Replica A" "base" ["id"]
    [[.vint 1], [.vint 2]] 0 (by decide) (by decide) (by decide)
  exact ⟨h.1, h.2⟩

end DL

namespace DL

/-
Lemmas about the resolver's list branch: the dict component depends only
on the dict component of the accumulator, logs only grow, and an unknown
name contributes a warning and nothing else.
-/

/-- The resolved-dict component of the list-branch fold ignores the log
component of the accumulator. -/
theorem listFold_dict_eq (baseNames : List (String × String))
    (con : List (String × Base)) :
    ∀ (names : List String)
      (acc1 acc2 : List (String × Base) × List LogMsg),
      acc1.1 = acc2.1 →
      (names.foldl (listStep baseNames con) acc1).1
        = (names.foldl (listStep baseNames con) acc2).1 := by
  intro names
  induction names with
  | nil => intro a b h; exact h
  | cons n ns ih =>
    intro a b h
    simp only [List.foldl_cons]
    apply ih
    simp only [listStep]
    rw [h]

/-- Logs only accumulate along the list-branch fold. -/
theorem listFold_logs_mono (baseNames : List (String × String))
    (con : List (String × Base)) :
    ∀ (names : List String) (acc : List (String × Base) × List LogMsg)
      (m : LogMsg), m ∈ acc.2 →
      m ∈ (names.foldl (listStep baseNames con) acc).2 := by
  intro names
  induction names with
  | nil => intro acc m h; exact h
  | cons n ns ih =>
    intro acc m h
    simp only [List.foldl_cons]
    apply ih
    simp only [listStep]
    exact List.mem_append_left _ h

/-- Dropping a name unknown to the registry from a list selection does not
change the resolved dict. -/
theorem listFold_filter_known (baseNames : List (String × String))
    (con : List (String × Base)) (u : String)
    (hu : con.lookup u = none) :
    ∀ (names : List String) (acc : List (String × Base) × List LogMsg),
      (names.foldl (listStep baseNames con) acc).1
        = ((names.filter (fun m => !(m == u))).foldl
            (listStep baseNames con) acc).1 := by
  intro names
  induction names with
  | nil => intro acc; rfl
  | cons n ns ih =>
    intro acc
    by_cases hn : n = u
    · subst hn
      have hfil : (n :: ns).filter (fun m => !(m == n))
          = ns.filter (fun m => !(m == n)) := by
        simp
      rw [hfil, List.foldl_cons]
      have hstep : (listStep baseNames con acc n).1 = acc.1 := by
        simp only [listStep, _gen_dict, hu]
        rfl
      rw [listFold_dict_eq baseNames con ns (listStep baseNames con acc n)
        acc hstep]
      exact ih acc
    · have hfil : (n :: ns).filter (fun m => !(m == u))
          = n :: ns.filter (fun m => !(m == u)) := by
        simp [hn]
      rw [hfil]
      simp only [List.foldl_cons]
      exact ih (listStep baseNames con acc n)

/-- A name unknown to the registry occurring in a list selection produces
its warning in the fold's log output. -/
theorem listFold_warns (baseNames : List (String × String))
    (con : List (String × Base)) (u : String)
    (hu : con.lookup u = none) :
    ∀ (names : List String) (acc : List (String × Base) × List LogMsg),
      u ∈ names →
      (⟨.warning, "Base " ++ u ++ " not found"⟩ : LogMsg)
        ∈ (names.foldl (listStep baseNames con) acc).2 := by
  intro names
  induction names with
  | nil => intro acc h; cases h
  | cons n ns ih =>
    intro acc h
    rw [List.mem_cons] at h
    simp only [List.foldl_cons]
    rcases h with h | h
    · subst h
      apply listFold_logs_mono
      simp only [listStep, _gen_dict, hu]
      exact List.mem_append_right _ (List.mem_singleton.mpr rfl)
    · exact ih _ h

/-- C6 counterexample: a registry without the requested instance.  The
resolver does return an empty resolved set without raising, but the
diagnostic it emits (`logger.error('No bases in instance ...')`) is an
error-level record, not the warning the claim promises. -/
theorem missing_instance_logs_error_level :
    get_dict_of_bases [] [] "replica" (.single "a")
        = ([], [⟨.error, "No bases in instance replica"⟩])
    ∧ (LogLevel.error ≠ LogLevel.warning) :=
  ⟨by decide, by decide⟩

/-- C6 (amended): resolution never raises.  A requested name absent from
the instance's registry yields a warning-level log and is omitted from the
resolved set (for single-name, list, and alias-dict selections); a missing
instance yields the empty resolved set with an error-level log message
(not warning-level), still without raising. -/
theorem resolution_never_fatal :
    (∀ (baseNames : List (String × String))
        (conns : List (String × List (String × Base)))
        (inst : String) (sel : Selection),
      conns.lookup inst = none →
      get_dict_of_bases baseNames conns inst sel
        = ([], [⟨.error, "No bases in instance " ++ inst⟩]))
  ∧ (∀ (baseNames : List (String × String))
        (conns : List (String × List (String × Base)))
        (inst : String) (con : List (String × Base)) (n : String),
      conns.lookup inst = some con → con.lookup n = none →
      get_dict_of_bases baseNames conns inst (.single n)
        = ([], [⟨.warning, "Base " ++ n ++ " not found"⟩]))
  ∧ (∀ (baseNames : List (String × String))
        (conns : List (String × List (String × Base)))
        (inst : String) (con : List (String × Base))
        (names : List String) (u : String),
      conns.lookup inst = some con → con.lookup u = none →
      (get_dict_of_bases baseNames conns inst (.list names)).1
          = (get_dict_of_bases baseNames conns inst
              (.list (names.filter (fun m => !(m == u))))).1
        ∧ (u ∈ names →
            (⟨.warning, "Base " ++ u ++ " not found"⟩ : LogMsg)
              ∈ (get_dict_of_bases baseNames conns inst (.list names)).2))
  ∧ (∀ (baseNames : List (String × String))
        (conns : List (String × List (String × Base)))
        (inst : String) (con : List (String × Base)) (u a : String),
      conns.lookup inst = some con → con.lookup u = none →
      get_dict_of_bases baseNames conns inst (.dict [(u, .title a)])
        = ([], [⟨.warning, "Base " ++ u ++ " not found"⟩])) := by
  refine ⟨?_, ?_, ?_, ?_⟩
  · intro baseNames conns inst sel h
    simp only [get_dict_of_bases, h]
  · intro baseNames conns inst con n hcon hn
    simp only [get_dict_of_bases, hcon, _gen_dict, hn]
  · intro baseNames conns inst con names u hcon hu
    constructor
    · simp only [get_dict_of_bases, hcon]
      exact listFold_filter_known baseNames con u hu names ([], [])
    · intro hm
      simp only [get_dict_of_bases, hcon]
      exact listFold_warns baseNames con u hu names ([], []) hm
  · intro baseNames conns inst con u a hcon hu
    simp only [get_dict_of_bases, hcon, List.foldl_cons, List.foldl_nil,
      dictStep, _gen_dict, hu]
    rfl

/-- C6 witness: concrete registries exercising all four conjuncts of the
amended resolution behavior. -/
theorem resolution_never_fatal_witness :
    get_dict_of_bases [] [("prod", [])] "replica" (.single "x")
        = ([], [⟨.error, "No bases in instance replica"⟩])
    ∧ get_dict_of_bases [] [("replica", [("known", {})])] "replica"
        (.single "nope")
        = ([], [⟨.warning, "Base nope not found"⟩])
    ∧ (⟨.warning, "Base nope not found"⟩ : LogMsg)
        ∈ (get_dict_of_bases [] [("replica", [("known", {})])] "replica"
            (.list ["known", "nope"])).2
    ∧ get_dict_of_bases [] [("replica", [("known", {})])] "replica"
        (.dict [("nope", .title "Nope")])
        = ([], [⟨.warning, "Base nope not found"⟩]) := by
  refine ⟨?_, ?_, ?_, ?_⟩
  · exact resolution_never_fatal.1 [] [("prod", [])] "replica"
      (.single "x") rfl
  · exact resolution_never_fatal.2.1 [] [("replica", [("known", {})])]
      "replica" [("known", {})] "nope" rfl rfl
  · exact (resolution_never_fatal.2.2.1 [] [("replica", [("known", {})])]
      "replica" [("known", {})] ["known", "nope"] "nope" rfl rfl).2
      (by decide)
  · exact resolution_never_fatal.2.2.2 [] [("replica", [("known", {})])]
      "replica" [("known", {})] "nope" "Nope" rfl rfl

end DL
